import Mathlib

set_option autoImplicit false

/-!
Shallow embedding of the resilient database connection-pool manager of
`src/api/main.py` (class `DatabasePool`, the `get_db_connection` context
manager, `log_prediction`, and the `/predict` and `/metrics` handlers).

External effects (the psycopg2 driver and the store) are modelled by an
oracle `World` that fixes the outcome of each pool-construction attempt,
of `getconn`/`putconn`, and of statement execution and commit.  The
psycopg2 pool itself is modelled by `PgPool` together with the documented
behaviour that `getconn`, `putconn` and `closeall` raise `PoolError`
once the pool is closed (and `getconn` raises when the pool is
exhausted).  Python exceptions are modelled by `Except`: a repository
function that contains no try/except around a raising call is itself
`Except`-valued (only `close` qualifies); every function whose body is
wrapped in try/except is total.
-/

namespace SentimentApi

/-- Severity of a log line emitted by the module logger. -/
inductive LogLevel
  | info
  | warning
  | error
  deriving DecidableEq

/-- One log line: severity plus a short tag standing for the message. -/
structure LogEntry where
  level : LogLevel
  tag : String
  deriving DecidableEq

/-- Handle to a psycopg2 `ThreadedConnectionPool`.  The only observable
the embedded code consults is whether the pool has been closed. -/
structure PgPool where
  closed : Bool
  deriving DecidableEq

/-- Python exceptions that the driver layer can raise. -/
inductive PyErr
  | poolError
  | driverError
  deriving DecidableEq

/-- A leased connection token. -/
abbrev Conn := Unit

/-- Oracle fixing the outcome of every external interaction:
`connectOk k` is the outcome of the k-th pool-construction attempt of
the process (0-indexed), `getconnOk`/`putconnOk` the driver outcome of
lease and release, `stmtOk` the outcome of executing a SQL statement on
a held connection, and `commitOk` the outcome of a commit. -/
structure World where
  connectOk : Nat → Bool
  getconnOk : Bool
  putconnOk : Bool
  stmtOk : Bool
  commitOk : Bool

/-- State of one `DatabasePool` instance together with the observable
state of the external store and instrumentation counters.
Fields `database_url`, `minconn`, `maxconn`, `pool`, `initialized`,
`init_attempted` mirror the attributes set in `DatabasePool.__init__`
(`_pool`, `_initialized`, `_init_attempted`); `retryThreadStarted`
records that `initialize` spawned the background retry thread.
`connectCalls` counts `_create_pool` invocations (indexing the oracle),
`tableCreated` tells whether the `CREATE TABLE` of `_init_table` has
committed, `rows` is the content of the predictions table, `leased` the
number of currently leased connections, `acquires` the number of
successful `get_connection` calls, `releases` the number of
`return_connection` calls made with a non-None connection, `timeSlept`
the accumulated `time.sleep` of the retry thread, and `logs` the lines
emitted by the logger. -/
structure DPState where
  database_url : Option String
  minconn : Nat
  maxconn : Nat
  pool : Option PgPool
  initialized : Bool
  init_attempted : Bool
  retryThreadStarted : Bool
  connectCalls : Nat
  tableCreated : Bool
  rows : List (String × String × ℚ)
  leased : Nat
  acquires : Nat
  releases : Nat
  timeSlept : Nat
  logs : List LogEntry
  deriving DecidableEq

/-- DatabasePool.__init__: `DatabasePool(database_url)` with the default
pool bounds `minconn=2`, `maxconn=10`.  An unset or empty DATABASE_URL
is modelled as `none` (both are falsy in Python). -/
def mkPool (url : Option String) : DPState :=
  { database_url := url
    minconn := 2
    maxconn := 10
    pool := none
    initialized := false
    init_attempted := false
    retryThreadStarted := false
    connectCalls := 0
    tableCreated := false
    rows := []
    leased := 0
    acquires := 0
    releases := 0
    timeSlept := 0
    logs := [] }

/-- DatabasePool._create_pool: attempts `pool.ThreadedConnectionPool(...)`.
On success it stores the pool and sets `_initialized = True`; on failure
(the constructor raised) the except branch sets `_pool = None` and
`_initialized = False` and logs a warning.  Returns the success flag. -/
def createPool (w : World) (s : DPState) : Bool × DPState :=
  let ok := w.connectOk s.connectCalls
  let s := { s with connectCalls := s.connectCalls + 1 }
  if ok then
    (true, { s with pool := some { closed := false }
                    initialized := true
                    logs := s.logs ++ [⟨LogLevel.info, "pool created"⟩] })
  else
    (false, { s with pool := none
                     initialized := false
                     logs := s.logs ++ [⟨LogLevel.warning, "create pool failed"⟩] })

/-- DatabasePool.initialize.  The lock is held only for the
`_init_attempted` test-and-set; the `_create_pool` call itself runs
after the `with self._lock` block has ended.  On a failed creation it
logs a warning and spawns the background retry thread; when no
DATABASE_URL is configured it only logs.  Returns `self._initialized`. -/
def initializePool (w : World) (s : DPState) : Bool × DPState :=
  if s.init_attempted then
    (s.initialized, s)
  else
    let s1 := { s with init_attempted := true }
    match s.database_url with
    | some _ =>
        let r := createPool w s1
        if r.1 then
          (r.2.initialized, r.2)
        else
          let s2 := { r.2 with
            logs := r.2.logs ++ [⟨LogLevel.warning, "db unavailable at startup"⟩]
            retryThreadStarted := true }
          (s2.initialized, s2)
    | none =>
        let s2 := { s1 with logs := s1.logs ++ [⟨LogLevel.warning, "DATABASE_URL not configured"⟩] }
        (s2.initialized, s2)

/-- psycopg2 `ThreadedConnectionPool.getconn`: raises `PoolError` when
the pool is closed or exhausted, and may raise a driver error
(oracle-controlled) otherwise. -/
def getconnRaw (w : World) (p : PgPool) (leased maxconn : Nat) : Except PyErr Conn :=
  if p.closed then
    Except.error PyErr.poolError
  else if maxconn ≤ leased then
    Except.error PyErr.poolError
  else if w.getconnOk then
    Except.ok ()
  else
    Except.error PyErr.driverError

/-- Final phase of DatabasePool.get_connection: the
`if self._pool and self._initialized: try: return self._pool.getconn()`
part.  A raised `getconn` is caught, logged, and converted to `None`. -/
def getConnAcquire (w : World) (s : DPState) : Option Conn × DPState :=
  match s.pool with
  | some p =>
      if s.initialized then
        match getconnRaw w p s.leased s.maxconn with
        | Except.ok c =>
            (some c, { s with leased := s.leased + 1, acquires := s.acquires + 1 })
        | Except.error _ =>
            (none, { s with logs := s.logs ++ [⟨LogLevel.error, "getconn failed"⟩] })
      else
        (none, s)
  | none => (none, s)

/-- DatabasePool.return_connection: guarded by `if self._pool and conn`;
the `putconn` call may raise (pool closed, or driver failure) and the
raise is caught and logged.  `releases` counts every call made with a
non-None connection. -/
def return_connection (w : World) (s : DPState) (conn : Option Conn) : DPState :=
  match conn with
  | none => s
  | some _ =>
      let s := { s with releases := s.releases + 1 }
      match s.pool with
      | none => s
      | some p =>
          if p.closed || !w.putconnOk then
            { s with logs := s.logs ++ [⟨LogLevel.error, "putconn failed"⟩] }
          else
            { s with leased := s.leased - 1 }

mutual

/-- Setup phases of DatabasePool.get_connection: the initial
`initialize()` trigger when no attempt was made yet, then (under the
lock) the lazy retry `if self._create_pool(): self._init_table()` when
still uninitialized and a DATABASE_URL is configured.  The fuel bounds
the mutual recursion with `_init_table`; the dynamic call depth of the
source is at most two, so any fuel above that is exact. -/
def getConnSetupF : Nat → World → DPState → DPState
  | 0, _, s => s
  | Nat.succ fuel, w, s =>
      let s1 := if !s.initialized && !s.init_attempted then (initializePool w s).2 else s
      if !s1.initialized then
        if !s1.initialized && s1.database_url.isSome then
          let r := createPool w s1
          if r.1 then initTableF fuel w r.2 else r.2
        else s1
      else s1

/-- DatabasePool._init_table: leases a connection via `get_connection`,
runs `CREATE TABLE IF NOT EXISTS predictions`, commits, returns the
connection and logs.  The whole body is wrapped in try/except, but the
except branch does NOT return the connection: when the statement or the
commit raises, the leased connection is abandoned. -/
def initTableF : Nat → World → DPState → DPState
  | 0, _, s => s
  | Nat.succ fuel, w, s =>
      let r := getConnAcquire w (getConnSetupF fuel w s)
      match r.1 with
      | none => r.2
      | some c =>
          if w.stmtOk then
            if w.commitOk then
              let s1 := return_connection w { r.2 with tableCreated := true } (some c)
              { s1 with logs := s1.logs ++ [⟨LogLevel.info, "predictions table initialized"⟩] }
            else
              { r.2 with logs := r.2.logs ++ [⟨LogLevel.error, "failed to initialize table"⟩] }
          else
            { r.2 with logs := r.2.logs ++ [⟨LogLevel.error, "failed to initialize table"⟩] }

end

/-- DatabasePool.get_connection: setup phases followed by the guarded
`getconn`.  Total: every internal fault yields `none`. -/
def get_connection (w : World) (s : DPState) : Option Conn × DPState :=
  getConnAcquire w (getConnSetupF 4 w s)

/-- DatabasePool._init_table at full (exact) fuel. -/
def init_table (w : World) (s : DPState) : DPState :=
  initTableF 4 w s

/-- Retry bound of DatabasePool._background_retry (`max_retries = 10`). -/
def max_retries : Nat := 10

/-- Inter-attempt delay of DatabasePool._background_retry
(`retry_delay = 5` seconds). -/
def retry_delay : Nat := 5

/-- The `time.sleep(retry_delay)` and per-attempt `logger.info` at the
top of each retry-loop iteration. -/
def retrySleep (s : DPState) : DPState :=
  { s with
    timeSlept := s.timeSlept + retry_delay
    logs := s.logs ++ [⟨LogLevel.info, "retrying db connection"⟩] }

/-- While-loop of DatabasePool._background_retry, fuel = remaining
attempts: while not initialized and attempts remain, sleep, log, and
(under the lock) `if self._create_pool(): self._init_table(); return`. -/
def backgroundRetryLoop (w : World) : Nat → DPState → DPState
  | 0, s => s
  | Nat.succ fuel, s =>
      if s.initialized then s
      else
        let r := createPool w (retrySleep s)
        if r.1 then init_table w r.2
        else backgroundRetryLoop w fuel r.2

/-- DatabasePool._background_retry: the bounded loop followed by the
terminal `if not self._initialized: logger.error(...)`. -/
def background_retry (w : World) (s : DPState) : DPState :=
  let s1 := backgroundRetryLoop w max_retries s
  if !s1.initialized then
    { s1 with logs := s1.logs ++ [⟨LogLevel.error, "failed after max retries"⟩] }
  else s1

/-- DatabasePool.is_ready: early `False` when not initialized, otherwise
lease a connection, run `SELECT 1`, release on both the success and the
except branch, and return the outcome. -/
def is_ready (w : World) (s : DPState) : Bool × DPState :=
  if !s.initialized then
    (false, s)
  else
    let r := get_connection w s
    match r.1 with
    | none => (false, r.2)
    | some c =>
        if w.stmtOk then
          (true, return_connection w r.2 (some c))
        else
          (false, return_connection w r.2 (some c))

/-- DatabasePool.close: `if self._pool: self._pool.closeall()`.  There
is no try/except and `_pool` is not cleared, so a `closeall` on an
already-closed pool propagates psycopg2's `PoolError` to the caller. -/
def close (s : DPState) : Except PyErr DPState :=
  match s.pool with
  | none => Except.ok s
  | some p =>
      if p.closed then
        Except.error PyErr.poolError
      else
        Except.ok
          { s with pool := some { p with closed := true }
                   logs := s.logs ++ [⟨LogLevel.info, "pool closed"⟩] }

/-- log_prediction: leases via the `get_db_connection` context manager;
when the connection is `None` it logs a warning and returns `False`
(the finally-branch releases nothing).  Otherwise it runs the INSERT
(which fails when the predictions table does not exist or the statement
oracle fails), commits, logs, and returns `True`; any raise unwinds
through the context manager (releasing the connection) into the outer
except, which logs an error and returns `False`. -/
def log_prediction (w : World) (text sentiment : String) (confidence : ℚ)
    (s : DPState) : Bool × DPState :=
  let r := get_connection w s
  match r.1 with
  | none =>
      (false, { r.2 with logs := r.2.logs ++ [⟨LogLevel.warning, "db unavailable - not logged"⟩] })
  | some c =>
      if r.2.tableCreated && w.stmtOk then
        if w.commitOk then
          let s1 := { r.2 with
            rows := r.2.rows ++ [(text, sentiment, confidence)]
            logs := r.2.logs ++ [⟨LogLevel.info, "prediction logged"⟩] }
          (true, return_connection w s1 (some c))
        else
          let s1 := return_connection w r.2 (some c)
          (false, { s1 with logs := s1.logs ++ [⟨LogLevel.error, "failed to log prediction"⟩] })
      else
        let s1 := return_connection w r.2 (some c)
        (false, { s1 with logs := s1.logs ++ [⟨LogLevel.error, "failed to log prediction"⟩] })

/-- Response body of the `/predict` endpoint (the fields of the returned
JSON object). -/
structure PredictResponse where
  sentiment : String
  confidence : ℚ
  latency_ms : ℚ
  deriving DecidableEq

/-- The `/predict` handler: the classifier (opaque, modelled as a
function from the input text to label and confidence) is evaluated
first, then `log_prediction` is called and its result discarded, and
the response is built from the classifier output and the measured
latency alone. -/
def predict (m : String → String × ℚ) (elapsed : ℚ) (w : World) (s : DPState)
    (text : String) : PredictResponse × DPState :=
  let sentiment := (m text).1
  let confidence := (m text).2
  let logged := log_prediction w text sentiment confidence s
  ({ sentiment := sentiment, confidence := confidence, latency_ms := elapsed }, logged.2)

/-- Result of the `/metrics` handler: the unavailable comment, a report
(carrying the `db_pool_ready` gauge computed by the inner `is_ready`
call), or the error comment from the outer except. -/
inductive MetricsResult
  | unavailable
  | report (ready : Bool)
  | failure
  deriving DecidableEq

/-- The `/metrics` handler: leases via the context manager; with no
connection it returns the unavailable comment.  Otherwise it runs the
two SELECTs over the predictions table (failing when the table does not
exist or the statement oracle fails), calls `db_pool.is_ready()` while
still holding its own connection, releases, and returns the report; a
raise releases the connection and returns the error comment. -/
def metrics (w : World) (s : DPState) : MetricsResult × DPState :=
  let r := get_connection w s
  match r.1 with
  | none => (MetricsResult.unavailable, r.2)
  | some c =>
      if r.2.tableCreated && w.stmtOk then
        let rr := is_ready w r.2
        (MetricsResult.report rr.1, return_connection w rr.2 (some c))
      else
        (MetricsResult.failure, return_connection w r.2 (some c))

end SentimentApi

namespace SentimentApi

/-! Helper lemmas about field effects of the small operations. -/

/-- Field effects of `_create_pool`: it consumes one construction
attempt, sets `_initialized` to its own result, and on success installs
a fresh (open) pool; the configuration and all counters other than
`connectCalls` are untouched. -/
theorem createPool_fields (w : World) (s : DPState) :
    (createPool w s).2.database_url = s.database_url ∧
    (createPool w s).2.init_attempted = s.init_attempted ∧
    (createPool w s).2.connectCalls = s.connectCalls + 1 ∧
    (createPool w s).2.tableCreated = s.tableCreated ∧
    (createPool w s).2.leased = s.leased ∧
    (createPool w s).2.maxconn = s.maxconn ∧
    (createPool w s).2.acquires = s.acquires ∧
    (createPool w s).2.releases = s.releases ∧
    (createPool w s).2.timeSlept = s.timeSlept ∧
    (createPool w s).2.initialized = (createPool w s).1 ∧
    ((createPool w s).1 = true → (createPool w s).2.pool = some { closed := false }) := by
  unfold createPool
  by_cases h : w.connectOk s.connectCalls = true <;> simp [h]

/-- Effects of `return_connection` on the bookkeeping fields: the pool
handle, initialization flags and counters other than `releases` and
`leased` are untouched, and `releases` grows by one exactly when the
connection argument is non-None. -/
theorem return_connection_fields (w : World) (s : DPState) (c : Option Conn) :
    (return_connection w s c).pool = s.pool ∧
    (return_connection w s c).initialized = s.initialized ∧
    (return_connection w s c).init_attempted = s.init_attempted ∧
    (return_connection w s c).tableCreated = s.tableCreated ∧
    (return_connection w s c).acquires = s.acquires ∧
    (return_connection w s c).connectCalls = s.connectCalls ∧
    (return_connection w s c).timeSlept = s.timeSlept ∧
    (return_connection w s c).releases = s.releases + (if c.isSome then 1 else 0) := by
  unfold return_connection
  cases c with
  | none => simp
  | some u =>
      cases hp : s.pool with
      | none => simp [hp]
      | some p => by_cases h : (p.closed || !w.putconnOk) = true <;> simp [hp, h]

/-- Effects of `getConnAcquire`: the pool handle and flags are
untouched, `acquires` and `leased` grow by one exactly when a
connection is handed out, `releases` is untouched. -/
theorem getConnAcquire_fields (w : World) (s : DPState) :
    (getConnAcquire w s).2.pool = s.pool ∧
    (getConnAcquire w s).2.initialized = s.initialized ∧
    (getConnAcquire w s).2.init_attempted = s.init_attempted ∧
    (getConnAcquire w s).2.tableCreated = s.tableCreated ∧
    (getConnAcquire w s).2.releases = s.releases ∧
    (getConnAcquire w s).2.connectCalls = s.connectCalls ∧
    (getConnAcquire w s).2.timeSlept = s.timeSlept ∧
    (getConnAcquire w s).2.acquires =
      s.acquires + (if (getConnAcquire w s).1.isSome then 1 else 0) := by
  unfold getConnAcquire
  cases hp : s.pool with
  | none => simp [hp]
  | some p =>
      by_cases h : s.initialized = true
      · cases hg : getconnRaw w p s.leased s.maxconn <;> simp [hp, h, hg]
      · simp [hp, h]

/-- When the pool is already initialized both setup phases of
`get_connection` are skipped, for every fuel value. -/
theorem getConnSetupF_initialized (fuel : Nat) (w : World) (s : DPState)
    (h : s.initialized = true) : getConnSetupF fuel w s = s := by
  cases fuel with
  | zero => rfl
  | succ n => unfold getConnSetupF ; simp [h]

/-- The boolean returned by `initialize` is the `_initialized` flag of
the post-state. -/
theorem initializePool_fst (w : World) (s : DPState) :
    (initializePool w s).1 = (initializePool w s).2.initialized := by
  unfold initializePool
  split
  · rfl
  · split
    · dsimp only
      split <;> rfl
    · rfl

/-- Every run of `initialize` leaves `_init_attempted` set. -/
theorem initializePool_attempted (w : World) (s : DPState) :
    (initializePool w s).2.init_attempted = true := by
  unfold initializePool
  split
  next h => exact h
  · split
    · dsimp only
      split
      · exact (createPool_fields _ _).2.1
      · exact (createPool_fields _ _).2.1
    · rfl

end SentimentApi

namespace SentimentApi

/-! Concrete oracles and states used by counterexamples and witnesses. -/

/-- Oracle in which every external interaction succeeds. -/
def wHappy : World :=
  { connectOk := fun _ => true, getconnOk := true, putconnOk := true
    stmtOk := true, commitOk := true }

/-- Oracle in which pool construction always fails. -/
def wDown : World :=
  { connectOk := fun _ => false, getconnOk := true, putconnOk := true
    stmtOk := true, commitOk := true }

/-- Oracle in which only the second construction attempt (index 1)
succeeds and every SQL statement fails. -/
def wLeak : World :=
  { connectOk := fun n => decide (n = 1), getconnOk := true, putconnOk := true
    stmtOk := false, commitOk := true }

/-- Oracle in which only the second construction attempt (index 1)
succeeds and all later interactions succeed. -/
def wRecover : World :=
  { connectOk := fun n => decide (n = 1), getconnOk := true, putconnOk := true
    stmtOk := true, commitOk := true }

/-- A fresh pool configured with a reachable endpoint. -/
def freshPool : DPState := mkPool (some "postgres")

/-- The pool after a startup `initialize()` whose construction attempt
failed: `_init_attempted` is set, the pool is uninitialized, and the
background retry thread has been spawned. -/
def failedStart : DPState := (initializePool wDown freshPool).2

/-- Helper: a second `initialize()` call on a pool whose first call has
already run returns the current readiness flag and changes nothing. -/
theorem initializePool_already_attempted (w : World) (t : DPState)
    (h : t.init_attempted = true) : initializePool w t = (t.initialized, t) := by
  unfold initializePool ; simp [h]

/-- C1: REFUTED (code bug).  The claim says a first `initialize()` that
succeeds in constructing the pool performs the schema-ensure before
marking Ready, so that afterwards the predictions table exists.  In the
code the success branch of `initialize` never calls `_init_table` (only
the background-retry and lazy per-request paths do), so on a reachable
endpoint `initialize()` returns true with the predictions table still
absent, and a subsequent `record` fails. -/
theorem initialize_success_skips_table_init :
    (initializePool wHappy freshPool).1 = true ∧
    (initializePool wHappy freshPool).2.initialized = true ∧
    (initializePool wHappy freshPool).2.tableCreated = false ∧
    (log_prediction wHappy "great" "positive" ((95 : ℚ) / 100)
        (initializePool wHappy freshPool).2).1 = false := by
  decide

/-- C2: CONFIRMED.  The sentiment and confidence fields of the
`/predict` response depend only on the classifier output on the input
text: they are identical across any two database oracles and any two
pool states, so no outcome of `log_prediction` reaches the response. -/
theorem predict_response_independent_of_db
    (m : String → String × ℚ) (elapsed : ℚ) (text : String)
    (w₁ w₂ : World) (s₁ s₂ : DPState) :
    (predict m elapsed w₁ s₁ text).1.sentiment = (predict m elapsed w₂ s₂ text).1.sentiment ∧
    (predict m elapsed w₁ s₁ text).1.confidence = (predict m elapsed w₂ s₂ text).1.confidence :=
  ⟨rfl, rfl⟩

/-- C4: CONFIRMED.  `get_connection` is a total function (no exception
escapes): it is the composition of the setup phases with the guarded
acquire, and the acquire returns exactly the `toOption` of the raw
driver call - `none` whenever the pool is absent, the pool is not
initialized, or `getconn` raised (pool closed, pool exhausted, or
driver error). -/
theorem get_connection_never_raises (w : World) (s t : DPState) :
    get_connection w s = getConnAcquire w (getConnSetupF 4 w s) ∧
    (getConnAcquire w t).1 =
      (match t.pool with
       | none => none
       | some p =>
           if t.initialized then (getconnRaw w p t.leased t.maxconn).toOption else none) := by
  refine ⟨rfl, ?_⟩
  unfold getConnAcquire
  cases hp : t.pool with
  | none => simp [hp]
  | some p =>
      by_cases h : t.initialized = true
      · cases hg : getconnRaw w p t.leased t.maxconn <;>
          simp [hp, h, hg, Except.toOption]
      · simp [hp, h]

/-- C6: CONFIRMED.  `initialize()` is idempotent: any call after the
first returns the current readiness flag and performs no work at all
(the post-state is unchanged, so in particular no construction attempt
is made), and each call returns exactly the recorded readiness flag. -/
theorem initialize_idempotent (w w₂ : World) (s : DPState) :
    initializePool w₂ (initializePool w s).2 =
      ((initializePool w s).2.initialized, (initializePool w s).2) ∧
    (initializePool w s).1 = (initializePool w s).2.initialized ∧
    (initializePool w₂ (initializePool w s).2).2.connectCalls =
      (initializePool w s).2.connectCalls := by
  have h := initializePool_already_attempted w₂ _ (initializePool_attempted w s)
  exact ⟨h, initializePool_fst w s, by rw [h]⟩

/-- C7: REFUTED for the double-close case (code bug).  `close()` is a
safe no-op when no pool was ever created, but after a successful close
the `_pool` attribute is not cleared and `closeall` is not guarded, so
a second `close()` reaches psycopg2's `closeall` on an already-closed
pool, which raises `PoolError` to the caller. -/
theorem close_double_close_fault :
    close freshPool = Except.ok freshPool ∧
    (close (createPool wHappy freshPool).2).isOk = true ∧
    Except.bind (close (createPool wHappy freshPool).2) close =
      Except.error PyErr.poolError :=
  ⟨rfl, rfl, rfl⟩

end SentimentApi

namespace SentimentApi

/-- A `return_connection` call with a real connection leaves `acquires`
unchanged. -/
theorem return_connection_acquires (w : World) (s : DPState) (c : Conn) :
    (return_connection w s (some c)).acquires = s.acquires :=
  (return_connection_fields w s (some c)).2.2.2.2.1

/-- A `return_connection` call with a real connection bumps `releases`
by exactly one. -/
theorem return_connection_releases (w : World) (s : DPState) (c : Conn) :
    (return_connection w s (some c)).releases = s.releases + 1 := by
  have h := (return_connection_fields w s (some c)).2.2.2.2.2.2.2
  simpa using h

/-- On an initialized pool `get_connection` is exactly the guarded
acquire: both setup phases are skipped. -/
theorem get_connection_initialized (w : World) (s : DPState)
    (h : s.initialized = true) : get_connection w s = getConnAcquire w s := by
  unfold get_connection
  rw [getConnSetupF_initialized 4 w s h]

/-- C3: CONFIRMED.  `log_prediction` always returns a boolean (it is a
total function, so nothing is raised to the caller); it returns true
exactly when a connection was leased and the INSERT and the commit both
succeeded; whenever a connection was leased it performs exactly one
`return_connection` call - also on the statement-failure and
commit-failure paths; and when no connection is available it returns
false having appended only a warning log line. -/
theorem log_prediction_contract :
    (∀ (w : World) (t l : String) (c : ℚ) (s : DPState),
       (log_prediction w t l c s).1 =
         ((get_connection w s).1.isSome && ((get_connection w s).2.tableCreated
           && w.stmtOk) && w.commitOk)) ∧
    (∀ (w : World) (t l : String) (c : ℚ) (s : DPState),
       (log_prediction w t l c s).2.releases =
         (get_connection w s).2.releases +
           (if (get_connection w s).1.isSome then 1 else 0)) ∧
    (∀ (w : World) (t l : String) (c : ℚ) (s : DPState),
       (get_connection w s).1 = none →
         (log_prediction w t l c s).1 = false ∧
         (log_prediction w t l c s).2.logs =
           (get_connection w s).2.logs ++
             [⟨LogLevel.warning, "db unavailable - not logged"⟩]) := by
  refine ⟨?_, ?_, ?_⟩
  · intro w t l c s
    unfold log_prediction
    cases hc : (get_connection w s).1 with
    | none => simp [hc]
    | some u =>
        by_cases h1 : ((get_connection w s).2.tableCreated && w.stmtOk) = true
        · by_cases h2 : w.commitOk = true <;> simp [hc, h1, h2]
        · simp [hc, h1]
  · intro w t l c s
    unfold log_prediction
    cases hc : (get_connection w s).1 with
    | none => simp [hc]
    | some u =>
        by_cases h1 : ((get_connection w s).2.tableCreated && w.stmtOk) = true
        · by_cases h2 : w.commitOk = true <;>
            simp [hc, h1, h2, return_connection_releases]
        · simp [hc, h1, return_connection_releases]
  · intro w t l c s hc
    unfold log_prediction
    simp [hc]

/-- Witness for C3 at the endpoint-unset scenario: with no DATABASE_URL
no connection is available, so `record` returns false and only logs a
warning. -/
theorem log_prediction_contract_witness :
    (log_prediction wHappy "x" "positive" ((9 : ℚ) / 10) (mkPool none)).1 = false ∧
    (log_prediction wHappy "x" "positive" ((9 : ℚ) / 10) (mkPool none)).2.logs =
      (get_connection wHappy (mkPool none)).2.logs ++
        [⟨LogLevel.warning, "db unavailable - not logged"⟩] :=
  log_prediction_contract.2.2 wHappy "x" "positive" ((9 : ℚ) / 10) (mkPool none)
    (by decide)

end SentimentApi

namespace SentimentApi

/-- Field effects of `get_connection` on an initialized pool: one
acquire is counted exactly when a connection is handed out, no release
is performed, and the pool stays initialized with the same
`tableCreated` flag. -/
theorem get_connection_initialized_fields (w : World) (s : DPState)
    (h : s.initialized = true) :
    (get_connection w s).2.acquires =
      s.acquires + (if (get_connection w s).1.isSome then 1 else 0) ∧
    (get_connection w s).2.releases = s.releases ∧
    (get_connection w s).2.initialized = true := by
  rw [get_connection_initialized w s h]
  refine ⟨(getConnAcquire_fields w s).2.2.2.2.2.2.2,
    (getConnAcquire_fields w s).2.2.2.2.1, ?_⟩
  rw [(getConnAcquire_fields w s).2.1]
  exact h

/-- `is_ready` leases and releases in balance: the change of the
acquire counter equals the change of the release counter (stated
addition-free of truncated subtraction). -/
theorem is_ready_balance (w : World) (s : DPState) :
    (is_ready w s).2.acquires + s.releases = (is_ready w s).2.releases + s.acquires := by
  cases hinit : s.initialized with
  | false =>
      unfold is_ready
      simp only [hinit, Bool.not_false, if_true]
      omega
  | true =>
      have hf := get_connection_initialized_fields w s hinit
      unfold is_ready
      simp only [hinit, Bool.not_true, Bool.false_eq_true, if_false]
      cases hc : (get_connection w s).1 with
      | none =>
          simp [hc] at hf
          simp only [hc]
          omega
      | some u =>
          simp [hc] at hf
          by_cases hs : w.stmtOk = true <;>
            simp only [hc, hs, Bool.false_eq_true, if_true, if_false,
              return_connection_acquires, return_connection_releases] <;>
          omega

end SentimentApi

namespace SentimentApi

/-- C5 counterexample: the claim fails as stated.  Starting from a pool
whose startup initialization failed, a single `log_prediction` call
triggers the lazy creation inside `get_connection`; the creation
succeeds and `_init_table` leases a connection, but its CREATE TABLE
statement fails and the except branch of `_init_table` does not release,
so the run performs two successful `get_connection`s and only one
`return_connection`, leaving one connection leased. -/
theorem init_table_leak_counterexample :
    failedStart.acquires = 0 ∧ failedStart.releases = 0 ∧ failedStart.leased = 0 ∧
    (log_prediction wLeak "x" "positive" ((9 : ℚ) / 10) failedStart).2.acquires = 2 ∧
    (log_prediction wLeak "x" "positive" ((9 : ℚ) / 10) failedStart).2.releases = 1 ∧
    (log_prediction wLeak "x" "positive" ((9 : ℚ) / 10) failedStart).2.leased = 1 := by
  decide

/-- C5 amended: CONFIRMED for the leases the three operations take
themselves.  On a pool that is already initialized (so the lazy
table-initialization path cannot run), every successful
`get_connection` performed during `log_prediction`, `is_ready` and the
`/metrics` handler is matched by exactly one `return_connection`: the
acquire and release counters move in lockstep, on success and failure
paths alike; `is_ready` satisfies this unconditionally. -/
theorem lease_balance_amended :
    (∀ (w : World) (t l : String) (c : ℚ) (s : DPState), s.initialized = true →
       (log_prediction w t l c s).2.acquires + s.releases =
         (log_prediction w t l c s).2.releases + s.acquires) ∧
    (∀ (w : World) (s : DPState),
       (is_ready w s).2.acquires + s.releases =
         (is_ready w s).2.releases + s.acquires) ∧
    (∀ (w : World) (s : DPState), s.initialized = true →
       (metrics w s).2.acquires + s.releases =
         (metrics w s).2.releases + s.acquires) := by
  refine ⟨?_, is_ready_balance, ?_⟩
  · intro w t l c s h
    obtain ⟨ha, hr, -⟩ := get_connection_initialized_fields w s h
    unfold log_prediction
    cases hc : (get_connection w s).1 with
    | none =>
        simp [hc] at ha
        simp only [hc]
        omega
    | some u =>
        simp [hc] at ha
        by_cases h1 : ((get_connection w s).2.tableCreated && w.stmtOk) = true
        · by_cases h2 : w.commitOk = true <;>
            simp only [hc, h1, h2, Bool.false_eq_true, if_true, if_false,
              return_connection_acquires, return_connection_releases] <;>
          omega
        · simp only [hc, h1, Bool.false_eq_true, if_false,
            return_connection_acquires, return_connection_releases]
          omega
  · intro w s h
    obtain ⟨ha, hr, hi⟩ := get_connection_initialized_fields w s h
    unfold metrics
    cases hc : (get_connection w s).1 with
    | none =>
        simp [hc] at ha
        simp only [hc]
        omega
    | some u =>
        simp [hc] at ha
        by_cases h1 : ((get_connection w s).2.tableCreated && w.stmtOk) = true
        · have hb := is_ready_balance w (get_connection w s).2
          simp only [hc, h1, if_true,
            return_connection_acquires, return_connection_releases]
          omega
        · simp only [hc, h1, Bool.false_eq_true, if_false,
            return_connection_acquires, return_connection_releases]
          omega

/-- Witness for the amended C5 on an initialized pool with every
interaction succeeding. -/
theorem lease_balance_amended_witness :
    ((log_prediction wHappy "x" "positive" ((9 : ℚ) / 10)
          (createPool wHappy freshPool).2).2.acquires
        + (createPool wHappy freshPool).2.releases =
      (log_prediction wHappy "x" "positive" ((9 : ℚ) / 10)
          (createPool wHappy freshPool).2).2.releases
        + (createPool wHappy freshPool).2.acquires) ∧
    ((metrics wHappy (createPool wHappy freshPool).2).2.acquires
        + (createPool wHappy freshPool).2.releases =
      (metrics wHappy (createPool wHappy freshPool).2).2.releases
        + (createPool wHappy freshPool).2.acquires) :=
  ⟨lease_balance_amended.1 wHappy "x" "positive" ((9 : ℚ) / 10) _ (by decide),
   lease_balance_amended.2.2 wHappy _ (by decide)⟩

end SentimentApi

namespace SentimentApi

/-- State invariant of the pool: whenever `_initialized` is set, a pool
object is installed. -/
def Inv (s : DPState) : Prop := s.initialized = true → s.pool.isSome = true

/-- The invariant only mentions the `pool` and `initialized` fields, so
it transports along any operation that preserves them. -/
theorem Inv_of_fields_eq {s t : DPState} (h1 : t.pool = s.pool)
    (h2 : t.initialized = s.initialized) (h : Inv s) : Inv t := by
  unfold Inv at *
  rw [h1, h2]
  exact h

/-- `_create_pool` establishes the invariant outright: on success it
installs a pool and sets the flag, on failure it clears both. -/
theorem Inv_createPool (w : World) (s : DPState) : Inv (createPool w s).2 := by
  unfold Inv createPool
  by_cases h : w.connectOk s.connectCalls = true <;> simp [h]

/-- `return_connection` preserves the invariant. -/
theorem Inv_return_connection (w : World) (s : DPState) (c : Option Conn)
    (h : Inv s) : Inv (return_connection w s c) :=
  Inv_of_fields_eq (return_connection_fields w s c).1
    (return_connection_fields w s c).2.1 h

/-- The guarded acquire preserves the invariant. -/
theorem Inv_getConnAcquire (w : World) (s : DPState) (h : Inv s) :
    Inv (getConnAcquire w s).2 :=
  Inv_of_fields_eq (getConnAcquire_fields w s).1 (getConnAcquire_fields w s).2.1 h

/-- `initialize` preserves the invariant. -/
theorem Inv_initializePool (w : World) (s : DPState) (h : Inv s) :
    Inv (initializePool w s).2 := by
  unfold initializePool
  split
  · exact h
  · split
    · dsimp only
      split
      · exact Inv_createPool w _
      · exact Inv_createPool w _
    · exact h

/-- Both setup phases of `get_connection` and `_init_table` preserve the
invariant, for every fuel value. -/
theorem Inv_setupF_initTableF (fuel : Nat) :
    (∀ w s, Inv s → Inv (getConnSetupF fuel w s)) ∧
    (∀ w s, Inv s → Inv (initTableF fuel w s)) := by
  induction fuel with
  | zero => exact ⟨fun _ _ h => h, fun _ _ h => h⟩
  | succ n ih =>
      constructor
      · intro w s h
        unfold getConnSetupF
        have hbody : ∀ t : DPState, Inv t →
            Inv (if !t.initialized then
                  (if !t.initialized && t.database_url.isSome then
                    (if (createPool w t).1 then initTableF n w (createPool w t).2
                     else (createPool w t).2)
                  else t)
                else t) := by
          intro t ht
          by_cases h1 : (!t.initialized) = true
          · rw [if_pos h1]
            by_cases h2 : (!t.initialized && t.database_url.isSome) = true
            · rw [if_pos h2]
              by_cases h3 : (createPool w t).1 = true
              · rw [if_pos h3]
                exact ih.2 w _ (Inv_createPool w t)
              · rw [if_neg h3]
                exact Inv_createPool w t
            · rw [if_neg h2]
              exact ht
          · rw [if_neg h1]
            exact ht
        by_cases h0 : (!s.initialized && !s.init_attempted) = true
        · have := hbody (initializePool w s).2 (Inv_initializePool w s h)
          simpa [h0] using this
        · have := hbody s h
          simpa [h0] using this
      · intro w s h
        unfold initTableF
        have hr : Inv (getConnAcquire w (getConnSetupF n w s)).2 :=
          Inv_getConnAcquire w _ (ih.1 w s h)
        cases hc : (getConnAcquire w (getConnSetupF n w s)).1 with
        | none => simpa [hc] using hr
        | some c =>
            by_cases h1 : w.stmtOk = true
            · by_cases h2 : w.commitOk = true
              · simp only [hc, h1, h2, if_true]
                exact Inv_return_connection w _ (some c) hr
              · simp only [hc, h1, h2, Bool.false_eq_true, if_true, if_false]
                exact hr
            · simp only [hc, h1, Bool.false_eq_true, if_false]
              exact hr

/-- `get_connection` preserves the invariant. -/
theorem Inv_get_connection (w : World) (s : DPState) (h : Inv s) :
    Inv (get_connection w s).2 :=
  Inv_getConnAcquire w _ ((Inv_setupF_initTableF 4).1 w s h)

/-- `_init_table` preserves the invariant. -/
theorem Inv_init_table (w : World) (s : DPState) (h : Inv s) :
    Inv (init_table w s) :=
  (Inv_setupF_initTableF 4).2 w s h

/-- `is_ready` preserves the invariant. -/
theorem Inv_is_ready (w : World) (s : DPState) (h : Inv s) :
    Inv (is_ready w s).2 := by
  unfold is_ready
  by_cases h0 : (!s.initialized) = true
  · rw [if_pos h0]
    exact h
  · rw [if_neg h0]
    have hr := Inv_get_connection w s h
    cases hc : (get_connection w s).1 with
    | none => simpa [hc] using hr
    | some c =>
        by_cases h1 : w.stmtOk = true <;>
          simp only [hc, h1, Bool.false_eq_true, if_true, if_false] <;>
        exact Inv_return_connection w _ (some c) hr

/-- The background retry loop preserves the invariant. -/
theorem Inv_backgroundRetryLoop (w : World) (fuel : Nat) (s : DPState)
    (h : Inv s) : Inv (backgroundRetryLoop w fuel s) := by
  induction fuel generalizing s with
  | zero => exact h
  | succ n ih =>
      unfold backgroundRetryLoop
      by_cases h0 : s.initialized = true
      · rw [if_pos h0]
        exact h
      · rw [if_neg h0]
        dsimp only
        split
        · exact Inv_init_table w _ (Inv_createPool w _)
        · exact ih _ (Inv_createPool w _)

/-- `_background_retry` preserves the invariant. -/
theorem Inv_background_retry (w : World) (s : DPState) (h : Inv s) :
    Inv (background_retry w s) := by
  unfold background_retry
  have hl := Inv_backgroundRetryLoop w max_retries s h
  by_cases h0 : (!(backgroundRetryLoop w max_retries s).initialized) = true <;>
    simp only [h0, Bool.false_eq_true, if_true, if_false] <;>
  exact hl

/-- `log_prediction` preserves the invariant. -/
theorem Inv_log_prediction (w : World) (t l : String) (c : ℚ) (s : DPState)
    (h : Inv s) : Inv (log_prediction w t l c s).2 := by
  unfold log_prediction
  have hr := Inv_get_connection w s h
  cases hc : (get_connection w s).1 with
  | none => simpa [hc] using hr
  | some u =>
      by_cases h1 : ((get_connection w s).2.tableCreated && w.stmtOk) = true
      · by_cases h2 : w.commitOk = true <;>
          simp only [hc, h1, h2, Bool.false_eq_true, if_true, if_false] <;>
        exact Inv_return_connection w _ (some u) hr
      · simp only [hc, h1, Bool.false_eq_true, if_false]
        exact Inv_return_connection w _ (some u) hr

/-- The `/metrics` handler preserves the invariant. -/
theorem Inv_metrics (w : World) (s : DPState) (h : Inv s) :
    Inv (metrics w s).2 := by
  unfold metrics
  have hr := Inv_get_connection w s h
  cases hc : (get_connection w s).1 with
  | none => simpa [hc] using hr
  | some u =>
      by_cases h1 : ((get_connection w s).2.tableCreated && w.stmtOk) = true
      · simp only [hc, h1, if_true]
        exact Inv_return_connection w _ (some u) (Inv_is_ready w _ hr)
      · simp only [hc, h1, Bool.false_eq_true, if_false]
        exact Inv_return_connection w _ (some u) hr

/-- A successful `close` preserves the invariant (the closed pool object
stays installed). -/
theorem Inv_close (s t : DPState) (h : close s = Except.ok t) (hs : Inv s) :
    Inv t := by
  unfold close at h
  cases hp : s.pool with
  | none =>
      simp only [hp] at h
      cases h
      exact hs
  | some p =>
      simp only [hp] at h
      by_cases h1 : p.closed = true
      · rw [if_pos h1] at h
        exact Except.noConfusion h
      · rw [if_neg h1] at h
        cases h
        intro _
        rfl

/-- A connection is handed out only from a state with a pool installed
and the initialized flag set (and the handout changes neither). -/
theorem getConnAcquire_some (w : World) (t : DPState)
    (h : (getConnAcquire w t).1.isSome = true) :
    (getConnAcquire w t).2.pool.isSome = true ∧
    (getConnAcquire w t).2.initialized = true := by
  unfold getConnAcquire at h ⊢
  cases hp : t.pool with
  | none =>
      simp only [hp] at h
      simp at h
  | some p =>
      simp only [hp] at h ⊢
      by_cases hi : t.initialized = true
      · rw [if_pos hi] at h ⊢
        cases hg : getconnRaw w p t.leased t.maxconn with
        | ok c => simp [hg, hi]
        | error e =>
            rw [hg] at h
            simp at h
      · rw [if_neg hi] at h
        simp at h

end SentimentApi

namespace SentimentApi

/-- C10: CONFIRMED.  In every reachable state, `_initialized` implies a
pool object is installed: the invariant holds at construction and is
preserved by every operation (pool creation on success and failure,
`initialize`, `get_connection`, `return_connection`, `is_ready`,
`_init_table`, the background retry, `log_prediction`, the `/metrics`
handler, and a successful `close`); and `get_connection` hands out a
connection only when the pool is installed and initialized. -/
theorem pool_state_invariant :
    (∀ url, Inv (mkPool url)) ∧
    (∀ (w : World) (s : DPState), Inv s →
       Inv (createPool w s).2 ∧ Inv (initializePool w s).2 ∧
       Inv (get_connection w s).2 ∧ (∀ c, Inv (return_connection w s c)) ∧
       Inv (is_ready w s).2 ∧ Inv (init_table w s) ∧ Inv (background_retry w s) ∧
       (∀ (t l : String) (cf : ℚ), Inv (log_prediction w t l cf s).2) ∧
       Inv (metrics w s).2 ∧ (∀ t, close s = Except.ok t → Inv t)) ∧
    (∀ (w : World) (s : DPState), (get_connection w s).1.isSome = true →
       (get_connection w s).2.pool.isSome = true ∧
       (get_connection w s).2.initialized = true) := by
  refine ⟨?_, ?_, ?_⟩
  · intro url
    simp [Inv, mkPool]
  · intro w s h
    exact ⟨Inv_createPool w s, Inv_initializePool w s h, Inv_get_connection w s h,
      fun c => Inv_return_connection w s c h, Inv_is_ready w s h, Inv_init_table w s h,
      Inv_background_retry w s h, fun t l cf => Inv_log_prediction w t l cf s h,
      Inv_metrics w s h, fun t ht => Inv_close s t ht h⟩
  · intro w s hs
    exact getConnAcquire_some w (getConnSetupF 4 w s) hs

/-- Witness for C10 on a successfully created pool: the invariant holds
after an acquire, and the acquire really handed out a connection from
an installed, initialized pool. -/
theorem pool_state_invariant_witness :
    Inv (get_connection wHappy (createPool wHappy freshPool).2).2 ∧
    (get_connection wHappy (createPool wHappy freshPool).2).2.initialized = true :=
  ⟨(pool_state_invariant.2.1 wHappy (createPool wHappy freshPool).2 (fun _ => by decide)).2.2.1,
   (pool_state_invariant.2.2 wHappy (createPool wHappy freshPool).2 (by decide)).2⟩

end SentimentApi

namespace SentimentApi

/-- The boolean returned by `_create_pool` is the oracle outcome of the
attempt it consumed. -/
theorem createPool_fst (w : World) (s : DPState) :
    (createPool w s).1 = w.connectOk s.connectCalls := by
  unfold createPool
  by_cases h : w.connectOk s.connectCalls = true <;> simp [h]

/-- A successful `putconn` on an open pool hands the connection back:
the leased count drops by one. -/
theorem return_connection_leased (w : World) (s : DPState) (c : Conn) (p : PgPool)
    (hp : s.pool = some p) (hcl : p.closed = false) (hput : w.putconnOk = true) :
    (return_connection w s (some c)).leased = s.leased - 1 := by
  unfold return_connection
  simp [hp, hcl, hput]

/-- On an initialized pool `_init_table` performs no construction
attempt, does not sleep, and leaves the pool initialized. -/
theorem initTableF_initialized_counters (fuel : Nat) (w : World) (s : DPState)
    (h : s.initialized = true) :
    (initTableF fuel w s).connectCalls = s.connectCalls ∧
    (initTableF fuel w s).timeSlept = s.timeSlept ∧
    (initTableF fuel w s).initialized = true := by
  cases fuel with
  | zero => exact ⟨rfl, rfl, h⟩
  | succ n =>
      unfold initTableF
      rw [getConnSetupF_initialized n w s h]
      have hf := getConnAcquire_fields w s
      cases hc : (getConnAcquire w s).1 with
      | none =>
          simp only [hc]
          exact ⟨hf.2.2.2.2.2.1, hf.2.2.2.2.2.2.1, by rw [hf.2.1] ; exact h⟩
      | some c =>
          by_cases h1 : w.stmtOk = true
          · by_cases h2 : w.commitOk = true
            · simp only [hc, h1, h2, if_true]
              have hrc := return_connection_fields w
                { (getConnAcquire w s).2 with tableCreated := true } (some c)
              refine ⟨?_, ?_, ?_⟩
              · rw [hrc.2.2.2.2.2.1]
                exact hf.2.2.2.2.2.1
              · rw [hrc.2.2.2.2.2.2.1]
                exact hf.2.2.2.2.2.2.1
              · rw [hrc.2.1]
                rw [hf.2.1]
                exact h
            · simp only [hc, h1, h2, Bool.false_eq_true, if_true, if_false]
              exact ⟨hf.2.2.2.2.2.1, hf.2.2.2.2.2.2.1, by rw [hf.2.1] ; exact h⟩
          · simp only [hc, h1, Bool.false_eq_true, if_false]
            exact ⟨hf.2.2.2.2.2.1, hf.2.2.2.2.2.2.1, by rw [hf.2.1] ; exact h⟩

/-- `_init_table` (at its exact fuel) performs no construction attempt
on an initialized pool. -/
theorem init_table_initialized_counters (w : World) (s : DPState)
    (h : s.initialized = true) :
    (init_table w s).connectCalls = s.connectCalls ∧
    (init_table w s).timeSlept = s.timeSlept ∧
    (init_table w s).initialized = true :=
  initTableF_initialized_counters 4 w s h

/-- When the pool is freshly installed and every interaction of the
schema-ensure succeeds, `_init_table` commits the CREATE TABLE and
returns its leased connection. -/
theorem initTableF_success (n : Nat) (w : World) (s : DPState)
    (h : s.initialized = true) (hp : s.pool = some { closed := false })
    (hl : s.leased < s.maxconn) (hg : w.getconnOk = true) (hs : w.stmtOk = true)
    (hcm : w.commitOk = true) (hput : w.putconnOk = true) :
    (initTableF (Nat.succ n) w s).tableCreated = true ∧
    (initTableF (Nat.succ n) w s).leased = s.leased := by
  unfold initTableF
  rw [getConnSetupF_initialized n w s h]
  have hacq : getConnAcquire w s =
      (some (), { s with leased := s.leased + 1, acquires := s.acquires + 1 }) := by
    unfold getConnAcquire
    simp only [hp]
    rw [if_pos h]
    have hraw : getconnRaw w { closed := false } s.leased s.maxconn = Except.ok () := by
      unfold getconnRaw
      simp [hg, Nat.not_le.mpr hl]
    rw [hraw]
  simp only [hacq, hs, hcm, if_true]
  have hrc := return_connection_fields w
    { s with leased := s.leased + 1, acquires := s.acquires + 1, tableCreated := true }
    (some ())
  refine ⟨by rw [hrc.2.2.2.1], ?_⟩
  rw [return_connection_leased w _ () { closed := false } (by exact hp) rfl hput]
  simp

end SentimentApi

namespace SentimentApi

/-- The retry loop makes at most `fuel` construction attempts, each
preceded by exactly one fixed-length sleep. -/
theorem backgroundRetryLoop_bound (w : World) (fuel : Nat) :
    ∀ s : DPState, ∃ k, k ≤ fuel ∧
      (backgroundRetryLoop w fuel s).connectCalls = s.connectCalls + k ∧
      (backgroundRetryLoop w fuel s).timeSlept = s.timeSlept + retry_delay * k := by
  induction fuel with
  | zero =>
      intro s
      exact ⟨0, Nat.le_refl 0, by simp [backgroundRetryLoop], by simp [backgroundRetryLoop]⟩
  | succ n ih =>
      intro s
      unfold backgroundRetryLoop
      by_cases h0 : s.initialized = true
      · rw [if_pos h0]
        exact ⟨0, by omega, by simp, by simp⟩
      · rw [if_neg h0]
        dsimp only
        split
        next hok =>
          have hini : (createPool w (retrySleep s)).2.initialized = true := by
            rw [(createPool_fields w (retrySleep s)).2.2.2.2.2.2.2.2.2.1]
            exact hok
          have hit := init_table_initialized_counters w (createPool w (retrySleep s)).2 hini
          have hcc := (createPool_fields w (retrySleep s)).2.2.1
          have hts := (createPool_fields w (retrySleep s)).2.2.2.2.2.2.2.2.1
          refine ⟨1, by omega, ?_, ?_⟩
          · rw [hit.1, hcc]
            show s.connectCalls + 1 = s.connectCalls + 1
            rfl
          · rw [hit.2.1, hts]
            show s.timeSlept + retry_delay = s.timeSlept + retry_delay * 1
            rw [Nat.mul_one]
        next hok =>
          obtain ⟨k, hk, hkc, hkt⟩ := ih (createPool w (retrySleep s)).2
          have hcc := (createPool_fields w (retrySleep s)).2.2.1
          have hts := (createPool_fields w (retrySleep s)).2.2.2.2.2.2.2.2.1
          refine ⟨k + 1, by omega, ?_, ?_⟩
          · rw [hkc, hcc]
            show s.connectCalls + 1 + k = s.connectCalls + (k + 1)
            omega
          · rw [hkt, hts]
            show s.timeSlept + retry_delay + retry_delay * k =
              s.timeSlept + retry_delay * (k + 1)
            rw [Nat.mul_succ]
            omega

/-- The terminal-error wrapper of `_background_retry` does not change
the counters or the initialization flag of the loop result. -/
theorem background_retry_counters (w : World) (s : DPState) :
    (background_retry w s).connectCalls =
      (backgroundRetryLoop w max_retries s).connectCalls ∧
    (background_retry w s).timeSlept =
      (backgroundRetryLoop w max_retries s).timeSlept ∧
    (background_retry w s).initialized =
      (backgroundRetryLoop w max_retries s).initialized ∧
    (background_retry w s).tableCreated =
      (backgroundRetryLoop w max_retries s).tableCreated ∧
    (background_retry w s).leased =
      (backgroundRetryLoop w max_retries s).leased := by
  unfold background_retry
  by_cases h : (!(backgroundRetryLoop w max_retries s).initialized) = true <;>
    simp [h]

/-- When every attempt within the budget fails, the loop consumes the
whole budget and leaves the pool uninitialized. -/
theorem backgroundRetryLoop_allfail (w : World) (fuel : Nat) :
    ∀ s : DPState, s.initialized = false →
      (∀ j, j < fuel → w.connectOk (s.connectCalls + j) = false) →
      (backgroundRetryLoop w fuel s).initialized = false ∧
      (backgroundRetryLoop w fuel s).connectCalls = s.connectCalls + fuel := by
  induction fuel with
  | zero =>
      intro s h0 _
      exact ⟨h0, rfl⟩
  | succ n ih =>
      intro s h0 hall
      unfold backgroundRetryLoop
      rw [if_neg (by simp [h0])]
      dsimp only
      have hfail : (createPool w (retrySleep s)).1 = false := by
        rw [createPool_fst]
        show w.connectOk s.connectCalls = false
        simpa using hall 0 (by omega)
      rw [if_neg (by simp [hfail])]
      have hX0 : (createPool w (retrySleep s)).2.initialized = false := by
        rw [(createPool_fields w (retrySleep s)).2.2.2.2.2.2.2.2.2.1, hfail]
      have hXc : (createPool w (retrySleep s)).2.connectCalls = s.connectCalls + 1 :=
        (createPool_fields w (retrySleep s)).2.2.1
      obtain ⟨hi, hc⟩ := ih (createPool w (retrySleep s)).2 hX0 (fun j hj => by
        rw [hXc, show s.connectCalls + 1 + j = s.connectCalls + (j + 1) from by omega]
        exact hall (j + 1) (by omega))
      refine ⟨hi, ?_⟩
      rw [hc, hXc]
      omega

/-- When the first successful attempt is the k-th one (k within the
budget), the loop runs exactly k+1 attempts and ends by running the
schema-ensure on the state holding the freshly installed pool. -/
theorem backgroundRetryLoop_success (w : World) :
    ∀ (k fuel : Nat) (s : DPState), k < fuel → s.initialized = false →
      (∀ j, j < k → w.connectOk (s.connectCalls + j) = false) →
      w.connectOk (s.connectCalls + k) = true →
      ∃ t : DPState, t.initialized = true ∧ t.pool = some { closed := false } ∧
        t.connectCalls = s.connectCalls + k + 1 ∧ t.leased = s.leased ∧
        t.maxconn = s.maxconn ∧
        backgroundRetryLoop w fuel s = init_table w t := by
  intro k
  induction k with
  | zero =>
      intro fuel s hk h0 hall hok
      cases fuel with
      | zero => omega
      | succ n =>
          unfold backgroundRetryLoop
          rw [if_neg (by simp [h0])]
          dsimp only
          have hokk : (createPool w (retrySleep s)).1 = true := by
            rw [createPool_fst]
            show w.connectOk s.connectCalls = true
            simpa using hok
          rw [if_pos hokk]
          refine ⟨(createPool w (retrySleep s)).2, ?_, ?_, ?_, ?_, ?_, rfl⟩
          · rw [(createPool_fields w (retrySleep s)).2.2.2.2.2.2.2.2.2.1]
            exact hokk
          · exact (createPool_fields w (retrySleep s)).2.2.2.2.2.2.2.2.2.2 hokk
          · rw [(createPool_fields w (retrySleep s)).2.2.1]
            show s.connectCalls + 1 = s.connectCalls + 0 + 1
            omega
          · exact (createPool_fields w (retrySleep s)).2.2.2.2.1
          · exact (createPool_fields w (retrySleep s)).2.2.2.2.2.1
  | succ m ih =>
      intro fuel s hk h0 hall hok
      cases fuel with
      | zero => omega
      | succ n =>
          unfold backgroundRetryLoop
          rw [if_neg (by simp [h0])]
          dsimp only
          have hfail : (createPool w (retrySleep s)).1 = false := by
            rw [createPool_fst]
            show w.connectOk s.connectCalls = false
            simpa using hall 0 (by omega)
          rw [if_neg (by simp [hfail])]
          have hX0 : (createPool w (retrySleep s)).2.initialized = false := by
            rw [(createPool_fields w (retrySleep s)).2.2.2.2.2.2.2.2.2.1, hfail]
          have hXc : (createPool w (retrySleep s)).2.connectCalls = s.connectCalls + 1 :=
            (createPool_fields w (retrySleep s)).2.2.1
          obtain ⟨t, ht1, ht2, ht3, ht4, ht5, ht6⟩ := ih n (createPool w (retrySleep s)).2
            (by omega) hX0
            (fun j hj => by
              rw [hXc, show s.connectCalls + 1 + j = s.connectCalls + (j + 1) from by omega]
              exact hall (j + 1) (by omega))
            (by
              rw [hXc, show s.connectCalls + 1 + m = s.connectCalls + (m + 1) from by omega]
              exact hok)
          refine ⟨t, ht1, ht2, ?_, ?_, ?_, ht6⟩
          · rw [ht3, hXc]
            omega
          · rw [ht4, (createPool_fields w (retrySleep s)).2.2.2.2.1]
            rfl
          · rw [ht5, (createPool_fields w (retrySleep s)).2.2.2.2.2.1]
            rfl

end SentimentApi

namespace SentimentApi

/-- C8: CONFIRMED.  The background retry loop always terminates: it
performs at most `max_retries = 10` construction attempts, each
preceded by one fixed `retry_delay = 5` sleep; if every attempt in the
budget fails it terminates with the pool uninitialized and a terminal
error as its last log line; and if the first success is the k-th
attempt (k within budget) it stops immediately after it - exactly k+1
attempts - having run the schema-ensure (which, when the store
cooperates, commits the CREATE TABLE and hands its connection back). -/
theorem background_retry_terminates :
    (∀ (w : World) (s : DPState), ∃ k, k ≤ max_retries ∧
       (background_retry w s).connectCalls = s.connectCalls + k ∧
       (background_retry w s).timeSlept = s.timeSlept + retry_delay * k) ∧
    (∀ (w : World) (s : DPState), s.initialized = false →
       (∀ j, j < max_retries → w.connectOk (s.connectCalls + j) = false) →
       (background_retry w s).initialized = false ∧
       (background_retry w s).connectCalls = s.connectCalls + max_retries ∧
       (background_retry w s).logs.getLast? =
         some ⟨LogLevel.error, "failed after max retries"⟩) ∧
    (∀ (w : World) (s : DPState) (k : Nat), k < max_retries →
       s.initialized = false →
       (∀ j, j < k → w.connectOk (s.connectCalls + j) = false) →
       w.connectOk (s.connectCalls + k) = true →
       (background_retry w s).initialized = true ∧
       (background_retry w s).connectCalls = s.connectCalls + k + 1 ∧
       (w.getconnOk = true → w.stmtOk = true → w.commitOk = true →
        w.putconnOk = true → s.leased < s.maxconn →
        (background_retry w s).tableCreated = true ∧
        (background_retry w s).leased = s.leased)) := by
  refine ⟨?_, ?_, ?_⟩
  · intro w s
    obtain ⟨k, hk, hc, ht⟩ := backgroundRetryLoop_bound w max_retries s
    have hbc := background_retry_counters w s
    refine ⟨k, hk, ?_, ?_⟩
    · rw [hbc.1, hc]
    · rw [hbc.2.1, ht]
  · intro w s h0 hall
    obtain ⟨hi, hc⟩ := backgroundRetryLoop_allfail w max_retries s h0 hall
    unfold background_retry
    rw [if_pos (by simp [hi])]
    refine ⟨hi, hc, ?_⟩
    show ((backgroundRetryLoop w max_retries s).logs ++
        [(⟨LogLevel.error, "failed after max retries"⟩ : LogEntry)]).getLast? =
      some (⟨LogLevel.error, "failed after max retries"⟩ : LogEntry)
    rw [List.getLast?_append_cons]
    rfl
  · intro w s k hk h0 hall hok
    obtain ⟨t, ht1, ht2, ht3, ht4, ht5, ht6⟩ :=
      backgroundRetryLoop_success w k max_retries s hk h0 hall hok
    have hit := init_table_initialized_counters w t ht1
    have hloopinit : (backgroundRetryLoop w max_retries s).initialized = true := by
      rw [ht6]
      exact hit.2.2
    have hbc := background_retry_counters w s
    refine ⟨?_, ?_, ?_⟩
    · rw [hbc.2.2.1, hloopinit]
    · rw [hbc.1, ht6, hit.1, ht3]
    · intro hg hs hcm hput hl
      have hsucc := initTableF_success 3 w t ht1 ht2
        (by rw [ht4, ht5] ; exact hl) hg hs hcm hput
      constructor
      · rw [hbc.2.2.2.1, ht6]
        exact hsucc.1
      · rw [hbc.2.2.2.2, ht6]
        exact hsucc.2.trans ht4

/-- Witness for C8: with the store down for the whole budget the retry
thread exhausts its 10 attempts and gives up; with the store back for
the first retry attempt it stops after that one attempt and creates the
predictions table. -/
theorem background_retry_terminates_witness :
    ((background_retry wDown failedStart).initialized = false ∧
     (background_retry wDown failedStart).connectCalls =
       failedStart.connectCalls + max_retries ∧
     (background_retry wDown failedStart).logs.getLast? =
       some ⟨LogLevel.error, "failed after max retries"⟩) ∧
    ((background_retry wRecover failedStart).initialized = true ∧
     (background_retry wRecover failedStart).connectCalls =
       failedStart.connectCalls + 0 + 1 ∧
     ((background_retry wRecover failedStart).tableCreated = true ∧
      (background_retry wRecover failedStart).leased = failedStart.leased)) :=
  ⟨background_retry_terminates.2.1 wDown failedStart (by decide) (by decide),
   ⟨(background_retry_terminates.2.2 wRecover failedStart 0 (by decide) (by decide)
       (by decide) (by decide)).1,
    (background_retry_terminates.2.2 wRecover failedStart 0 (by decide) (by decide)
       (by decide) (by decide)).2.1,
    (background_retry_terminates.2.2 wRecover failedStart 0 (by decide) (by decide)
       (by decide) (by decide)).2.2 (by decide) (by decide) (by decide) (by decide)
       (by decide)⟩⟩

end SentimentApi

namespace SentimentApi

namespace Interleave

/-- Program counter of a thread A running `initialize()` on a fresh
pool with a configured DATABASE_URL.  Following the source, A takes the
lock only for the `_init_attempted` test-and-set, releases it, and only
then runs `_create_pool` - outside the lock. -/
inductive APc
  | start
  | locked
  | marked
  | creating
  | done
  deriving DecidableEq

/-- Program counter of a thread B running the lazy-retry block of
`get_connection` (it skipped the `initialize()` trigger because
`_init_attempted` was already set): B takes the lock, re-checks
`_initialized`, and runs `_create_pool` while holding the lock. -/
inductive BPc
  | start
  | locked
  | creating
  | done
  deriving DecidableEq

/-- Shared state of the two-thread interleaving: the two program
counters, the single mutual-exclusion lock, and the
`_init_attempted` / `_initialized` flags. -/
structure CState where
  aPc : APc
  bPc : BPc
  lockHeld : Bool
  init_attempted : Bool
  initialized : Bool
  deriving DecidableEq

/-- Initial state: nothing attempted, lock free. -/
def cInit : CState :=
  { aPc := APc.start, bPc := BPc.start, lockHeld := false
    init_attempted := false, initialized := false }

/-- One interleaved step, one constructor per source action: A locks,
test-and-sets `_init_attempted` releasing the lock, then begins and
finishes `_create_pool` with no lock required; B enters the lazy block
only while `_init_attempted` is set and `_initialized` is clear, and
needs the lock to begin its `_create_pool`, holding it until done. -/
inductive Step : CState → CState → Prop
  | aLock (s : CState) : s.aPc = APc.start → s.lockHeld = false →
      Step s { s with aPc := APc.locked, lockHeld := true }
  | aMark (s : CState) : s.aPc = APc.locked → s.init_attempted = false →
      Step s { s with aPc := APc.marked, init_attempted := true, lockHeld := false }
  | aBegin (s : CState) : s.aPc = APc.marked →
      Step s { s with aPc := APc.creating }
  | aFinish (s : CState) : s.aPc = APc.creating →
      Step s { s with aPc := APc.done, initialized := true }
  | bLock (s : CState) : s.bPc = BPc.start → s.init_attempted = true →
      s.initialized = false → s.lockHeld = false →
      Step s { s with bPc := BPc.locked, lockHeld := true }
  | bBegin (s : CState) : s.bPc = BPc.locked → s.initialized = false →
      Step s { s with bPc := BPc.creating }
  | bFinish (s : CState) : s.bPc = BPc.creating →
      Step s { s with bPc := BPc.done, lockHeld := false, initialized := true }

/-- Reachability by interleaved execution from the initial state. -/
def Reaches (s t : CState) : Prop := Relation.ReflTransGen Step s t

end Interleave

/-- C9: REFUTED (code bug).  The claim says every pool-creation path
runs its construction inside the one shared lock, so no two creation
attempts overlap.  But `initialize` releases the lock before calling
`_create_pool`, so an interleaving is reachable in which thread A is
inside `_create_pool` (from `initialize`, lockless) while thread B is
simultaneously inside `_create_pool` (from the lazy-retry block, lock
held): two pool constructions execute at the same instant. -/
theorem double_creation_reachable :
    ∃ t : Interleave.CState, Interleave.Reaches Interleave.cInit t ∧
      t.aPc = Interleave.APc.creating ∧ t.bPc = Interleave.BPc.creating := by
  refine ⟨⟨Interleave.APc.creating, Interleave.BPc.creating, true, true, false⟩,
    ?_, rfl, rfl⟩
  have h1 : Interleave.Step Interleave.cInit
      ⟨Interleave.APc.locked, Interleave.BPc.start, true, false, false⟩ :=
    Interleave.Step.aLock Interleave.cInit rfl rfl
  have h2 : Interleave.Step
      ⟨Interleave.APc.locked, Interleave.BPc.start, true, false, false⟩
      ⟨Interleave.APc.marked, Interleave.BPc.start, false, true, false⟩ :=
    Interleave.Step.aMark _ rfl rfl
  have h3 : Interleave.Step
      ⟨Interleave.APc.marked, Interleave.BPc.start, false, true, false⟩
      ⟨Interleave.APc.creating, Interleave.BPc.start, false, true, false⟩ :=
    Interleave.Step.aBegin _ rfl
  have h4 : Interleave.Step
      ⟨Interleave.APc.creating, Interleave.BPc.start, false, true, false⟩
      ⟨Interleave.APc.creating, Interleave.BPc.locked, true, true, false⟩ :=
    Interleave.Step.bLock _ rfl rfl rfl rfl
  have h5 : Interleave.Step
      ⟨Interleave.APc.creating, Interleave.BPc.locked, true, true, false⟩
      ⟨Interleave.APc.creating, Interleave.BPc.creating, true, true, false⟩ :=
    Interleave.Step.bBegin _ rfl rfl
  exact Relation.ReflTransGen.head h1 (Relation.ReflTransGen.head h2
    (Relation.ReflTransGen.head h3 (Relation.ReflTransGen.head h4
      (Relation.ReflTransGen.head h5 Relation.ReflTransGen.refl))))

end SentimentApi
